import Mathlib

/-!
Verification of the code-code-server launcher (github.com/ar90n/code-code-server).

This file gives a shallow embedding of the Go sources `project.go` and
`dockerfile/dockerfile.go` and proves the frozen specification claims about
them.  External effects (file reads, environment variables, the GitHub gist
API, the JSON5 parser applied to fetched gist content, and the process RNG)
are passed in explicitly as a `World` record / oracle functions; everything
else is translated function-for-function from the Go source.
-/

/-- JSON values as produced by decoding into `map[string]interface{}` or
held in `[]KeyBinding`, and consumed by `encoding/json`.  Numbers are
modelled as integers (no stated property depends on float formatting);
objects are association lists (Go maps hold each key at most once). -/
inductive Json where
  | null : Json
  | bool : Bool → Json
  | num : Int → Json
  | str : String → Json
  | arr : List Json → Json
  | obj : List (String × Json) → Json

/-- First-match lookup in an association list (Go map indexing). -/
def lookupKey (k : String) : List (String × Json) → Option Json
  | [] => none
  | (k', v) :: rest => if k' = k then some v else lookupKey k rest

/-- Update the binding of a key, appending it when absent (Go `m[k] = v`). -/
def setKey (k : String) (v : Json) : List (String × Json) → List (String × Json)
  | [] => [(k, v)]
  | (k', v') :: rest => if k' = k then (k, v) :: rest else (k', v') :: setKey k v rest

/-- The `PortAttribute` struct of project.go. -/
structure PortAttribute where
  Label : String
  OnAutoForward : String

/-- The `Build` sub-struct of `DevContainer` (project.go:33). -/
structure BuildSpec where
  Dockerfile : String
  Context : String
  Args : List (String × String)

/-- The `DevContainer` config struct of project.go:30.  `Settings` is `none`
for a nil Go map and `some kvs` otherwise (project.go:294 distinguishes the
nil case). -/
structure DevContainer where
  DirPath : String
  Name : String
  Build : BuildSpec
  RunArgs : List String
  WorkspaceMount : String
  WorkspaceFolder : String
  Settings : Option (List (String × Json))
  Extensions : List String
  ForwardPorts : List String
  PortsAttributes : List (String × PortAttribute)
  PostCreateCommand : String
  RemoteUser : String

/-- The `ServiceURL` struct of project.go:49. -/
structure ServiceURL where
  Host : String
  Port : Nat
  WorkspaceFolder : String

/-- The `KeyBinding` struct of project.go:87 / dockerfile.go. -/
structure KeyBinding where
  Key : String
  Command : String
  When : String

/-- Go `strings.ToLower`, character-pointwise.  Lean's `Char.toLower` is
exactly the ASCII fragment of Go's `unicode.ToLower`; the tag properties
below need only that nothing is mapped to an uppercase letter or a space. -/
def goToLower (s : String) : String :=
  String.mk (s.data.map Char.toLower)

/-- Go `strings.ReplaceAll(s, " ", "_")`: with a single-character pattern,
replacement is character-pointwise. -/
def goReplaceSpaceUnderscore (s : String) : String :=
  String.mk (s.data.map fun c => if c = ' ' then '_' else c)

/-- `getImageTag` (project.go:93): lower-case the display name, replace
spaces with underscores, append the fixed suffix. -/
def getImageTag (devcontainer : DevContainer) : String :=
  goReplaceSpaceUnderscore (goToLower devcontainer.Name) ++ "_code_coder_server"

theorem uint32_le_iff_toNat_le (a b : UInt32) : a ≤ b ↔ a.toNat ≤ b.toNat := by
  rw [UInt32.le_def]; exact BitVec.le_def

theorem char_ofNat_toNat (n : Nat) (h : Nat.isValidChar n) : (Char.ofNat n).toNat = n := by
  have hlt : n < 4294967296 := by
    rcases h with h | h
    · omega
    · omega
  simp only [Char.toNat, Char.ofNat, dif_pos h, Char.ofNatAux]
  simp [UInt32.toNat, BitVec.toNat_ofNat]

theorem charToLower_not_upper (c : Char) : (Char.toLower c).isUpper = false := by
  unfold Char.toLower
  simp only []
  by_cases h : c.toNat ≥ 65 ∧ c.toNat ≤ 90
  · rw [if_pos h]
    have hv : Nat.isValidChar (c.toNat + 32) := by left; omega
    have hval : (Char.ofNat (c.toNat + 32)).val.toNat = c.toNat + 32 := char_ofNat_toNat _ hv
    simp only [Char.isUpper]
    rw [Bool.and_eq_false_iff]
    right
    simp only [decide_eq_false_iff_not]
    rw [show (90 : UInt32) = UInt32.ofNat 90 from rfl]
    rw [uint32_le_iff_toNat_le]
    rw [hval]
    intro hle
    have : (UInt32.ofNat 90).toNat = 90 := by decide
    omega
  · rw [if_neg h]
    simp only [Char.isUpper]
    rw [Bool.and_eq_false_iff]
    rcases Nat.lt_or_ge c.toNat 65 with h65 | h65
    · left
      simp only [decide_eq_false_iff_not, ge_iff_le]
      rw [show (65 : UInt32) = UInt32.ofNat 65 from rfl]
      rw [uint32_le_iff_toNat_le]
      have h2 : (UInt32.ofNat 65).toNat = 65 := by decide
      have h3 : c.val.toNat = c.toNat := rfl
      omega
    · right
      simp only [decide_eq_false_iff_not]
      rw [show (90 : UInt32) = UInt32.ofNat 90 from rfl]
      rw [uint32_le_iff_toNat_le]
      have h90 : ¬ c.toNat ≤ 90 := fun hh => h ⟨h65, hh⟩
      have h2 : (UInt32.ofNat 90).toNat = 90 := by decide
      have h3 : c.val.toNat = c.toNat := rfl
      omega

theorem string_append_data (a b : String) : (a ++ b).data = a.data ++ b.data := by
  cases a; cases b; rfl

/-- Claim C2: the derived image tag is the lower-cased, space-to-underscore
display name with the fixed suffix `_code_coder_server`; consequently it
contains no uppercase letter and no space, and it depends only on the
config's display name (so repeated calls with the same config agree). -/
theorem getImageTag_spec :
    ∀ dc : DevContainer,
      getImageTag dc = goReplaceSpaceUnderscore (goToLower dc.Name) ++ "_code_coder_server"
      ∧ (∀ c ∈ (getImageTag dc).data, c.isUpper = false ∧ c ≠ ' ')
      ∧ (∀ dc' : DevContainer, dc.Name = dc'.Name → getImageTag dc = getImageTag dc') := by
  intro dc
  refine ⟨rfl, ?_, ?_⟩
  · intro c hc
    rw [getImageTag, string_append_data] at hc
    rcases List.mem_append.mp hc with hmem | hmem
    · simp only [goReplaceSpaceUnderscore, goToLower, String.mk] at hmem
      rcases List.mem_map.mp hmem with ⟨d, hd, rfl⟩
      rcases List.mem_map.mp hd with ⟨e, _, rfl⟩
      by_cases hsp : Char.toLower e = ' '
      · rw [if_pos hsp]
        exact ⟨by decide, by decide⟩
      · rw [if_neg hsp]
        exact ⟨charToLower_not_upper e, hsp⟩
    · have hall : ∀ d ∈ "_code_coder_server".data, d.isUpper = false ∧ d ≠ ' ' := by decide
      exact hall c hmem
  · intro dc' hname
    rw [getImageTag, getImageTag, hname]

/-- Values mergo treats as empty (`isEmptyValue` in mergo, after unwrapping
the `interface`: nil, false, zero, empty string/slice/map). -/
def isEmptyValue : Json → Bool
  | Json.null => true
  | Json.bool b => !b
  | Json.num n => n == 0
  | Json.str s => s.isEmpty
  | Json.arr xs => xs.isEmpty
  | Json.obj kvs => kvs.isEmpty

mutual
/-- `mergo.Merge(&dst, src)` (no options) on two decoded
`map[string]interface{}` values, as called at project.go:301: iterate the
source keys and apply `mergoStep` to each.  Go map iteration order is
unspecified, but distinct keys are processed independently, so a fold over
the association list is faithful. -/
def mergoMergeObj (dst : List (String × Json)) : List (String × Json) → List (String × Json)
  | [] => dst
  | (k, sv) :: rest => mergoMergeObj (mergoStep dst k sv) rest

/-- One source key in mergo's map merge: nil source values are skipped; a
source map merges recursively into a present destination map (the in-place
merge survives when it leaves the map non-empty); otherwise the source value
is written only when the destination value is absent or empty and the source
value is itself non-empty. -/
def mergoStep (dst : List (String × Json)) (k : String) : Json → List (String × Json)
  | Json.null => dst
  | Json.obj s =>
    match lookupKey k dst with
    | some (Json.obj d) =>
      if !(mergoMergeObj d s).isEmpty then setKey k (Json.obj (mergoMergeObj d s)) dst
      else if !s.isEmpty then setKey k (Json.obj s) dst
      else dst
    | some dv =>
      if isEmptyValue dv && !isEmptyValue (Json.obj s) then setKey k (Json.obj s) dst else dst
    | none =>
      if !isEmptyValue (Json.obj s) then dst ++ [(k, Json.obj s)] else dst
  | sv =>
    match lookupKey k dst with
    | some dv => if isEmptyValue dv && !isEmptyValue sv then setKey k sv dst else dst
    | none => if !isEmptyValue sv then dst ++ [(k, sv)] else dst
end

/-- Two-space indentation prefix written by `json.Indent` at a given depth. -/
def indentStr (depth : Nat) : String := String.mk (List.replicate (2 * depth) ' ')

/-- One character of a JSON string literal as written by `encoding/json`
with `SetEscapeHTML(false)`: quote, backslash and the named control
characters get two-character escapes, other control characters a `\u00xx`
escape, everything else is copied. -/
def jsonQuoteChar (c : Char) : String :=
  if c = '"' then "\\\""
  else if c = '\\' then "\\\\"
  else if c = '\n' then "\\n"
  else if c = '\r' then "\\r"
  else if c = '\t' then "\\t"
  else if c.toNat < 32 then
    let d := fun n => if n < 10 then Char.ofNat (48 + n) else Char.ofNat (87 + n)
    "\\u00" ++ String.mk [d (c.toNat / 16), d (c.toNat % 16)]
  else String.singleton c

/-- JSON string literal serialization. -/
def jsonQuote (s : String) : String :=
  "\"" ++ String.join (s.data.map jsonQuoteChar) ++ "\""

mutual
/-- The indented JSON text produced by `json.NewEncoder` + `json.Indent`
with indent two spaces, for a value at the given nesting depth
(dockerfile `dumpAsJson`, project.go:277). -/
def renderJson : Json → Nat → String
  | Json.null, _ => "null"
  | Json.bool b, _ => cond b "true" "false"
  | Json.num n, _ => toString n
  | Json.str s, _ => jsonQuote s
  | Json.arr [], _ => "[]"
  | Json.arr (x :: xs), depth =>
    "[\n" ++ renderArrItems (x :: xs) (depth + 1) ++ "\n" ++ indentStr depth ++ "]"
  | Json.obj [], _ => "\x7b\x7d"
  | Json.obj (kv :: kvs), depth =>
    "\x7b\n" ++ renderObjItems (kv :: kvs) (depth + 1) ++ "\n" ++ indentStr depth ++ "\x7d"

/-- Array elements, one per line, comma-separated. -/
def renderArrItems : List Json → Nat → String
  | [], _ => ""
  | [x], depth => indentStr depth ++ renderJson x depth
  | x :: y :: xs, depth =>
    indentStr depth ++ renderJson x depth ++ ",\n" ++ renderArrItems (y :: xs) depth

/-- Object members, one per line, comma-separated. -/
def renderObjItems : List (String × Json) → Nat → String
  | [], _ => ""
  | [(k, v)], depth => indentStr depth ++ jsonQuote k ++ ": " ++ renderJson v depth
  | (k, v) :: kv :: kvs, depth =>
    indentStr depth ++ jsonQuote k ++ ": " ++ renderJson v depth ++ ",\n" ++
      renderObjItems (kv :: kvs) depth
end

/-- Insertion into a key-sorted association list. -/
def insertSorted (k : String) (v : Json) : List (String × Json) → List (String × Json)
  | [] => [(k, v)]
  | (k', v') :: rest =>
    if k ≤ k' then (k, v) :: (k', v') :: rest else (k', v') :: insertSorted k v rest

/-- Insertion sort of object members by key (Go's `encoding/json` writes map
keys in ascending byte order, which on UTF-8 agrees with code-point order). -/
def sortPairs : List (String × Json) → List (String × Json)
  | [] => []
  | (k, v) :: rest => insertSorted k v (sortPairs rest)

mutual
/-- Recursively sort all object members by key, matching the order
`encoding/json` writes Go maps in.  (The `KeyBinding` struct is only ever
serialized through its own array path below, so normalizing it here too is
unobservable for the stated properties.) -/
def sortJson : Json → Json
  | Json.null => Json.null
  | Json.bool b => Json.bool b
  | Json.num n => Json.num n
  | Json.str s => Json.str s
  | Json.arr xs => Json.arr (sortJsonList xs)
  | Json.obj kvs => Json.obj (sortPairs (sortJsonPairs kvs))

def sortJsonList : List Json → List Json
  | [] => []
  | x :: xs => sortJson x :: sortJsonList xs

def sortJsonPairs : List (String × Json) → List (String × Json)
  | [] => []
  | (k, v) :: rest => (k, sortJson v) :: sortJsonPairs rest
end

/-- The standard base64 alphabet used by Go's `encoding/base64.StdEncoding`. -/
def base64Alphabet : List Char :=
  "ABCDEFGHIJKLMNOPQRSTUVWXYZabcdefghijklmnopqrstuvwxyz0123456789+/".data

def b64Char (n : Nat) : Char := base64Alphabet.getD n 'A'

/-- RFC 4648 base64 over a byte list (Go `base64.StdEncoding.EncodeToString`). -/
def b64EncodeBytes : List Nat → List Char
  | [] => []
  | [a] => [b64Char (a / 4), b64Char (a % 4 * 16), '=', '=']
  | [a, b] => [b64Char (a / 4), b64Char (a % 4 * 16 + b / 16), b64Char (b % 16 * 4), '=']
  | a :: b :: c :: rest =>
    b64Char (a / 4) :: b64Char (a % 4 * 16 + b / 16) :: b64Char (b % 16 * 4 + c / 64) ::
      b64Char (c % 64) :: b64EncodeBytes rest

/-- `b64.StdEncoding.EncodeToString([]byte(s))`: base64 of the UTF-8 bytes. -/
def b64Encode (s : String) : String :=
  String.mk (b64EncodeBytes (s.toUTF8.data.toList.map UInt8.toNat))

/-- `dumpAsJson` (project.go:277 / dockerfile.go): encode without HTML
escaping, then re-indent with two spaces.  `Encoder.Encode` appends a
newline, and `json.Indent` preserves trailing whitespace, so the result is
the indented text plus a final newline.  The indent step only fails on
malformed JSON, which the encoder cannot produce here, so this always
succeeds. -/
def dumpAsJson (obj : Json) : Except String String :=
  Except.ok (renderJson (sortJson obj) 0 ++ "\n")

/-- The external world as seen by the program: the process environment
(`os.Getenv`, returning "" for unset variables), the gist fetch
(`github.Client.Gists.Get`, modelled as gist id to the list of (filename,
content) pairs, or a transport error), the filesystem read
(`ioutil.ReadFile`), and the third-party JSON5 decoder applied to fetched
gist text, as an oracle for each of the two target Go types. -/
structure World where
  getenv : String → String
  gistGet : String → Except String (List (String × String))
  readFile : String → Except String String
  json5ParseObj : String → Except String (List (String × Json))
  json5ParseKeyBindings : String → Except String (List KeyBinding)

/-- First-match lookup among gist files (Go `gist.GetFiles()[filename]`). -/
def lookupFile (k : String) : List (String × String) → Option String
  | [] => none
  | (k', v) :: rest => if k' = k then some v else lookupFile k rest

/-- `getSettingsSyncGistId` (project.go:206): read the environment variable,
error when it is unset/empty. -/
def getSettingsSyncGistId (w : World) : Except String String :=
  let settingsSyncGistId := w.getenv "SETTINGS_SYNC_GIST_ID"
  if settingsSyncGistId = "" then Except.error "SETTINGS_SYNC_GIST_ID is not set"
  else Except.ok settingsSyncGistId

/-- `fetchContentsFromGist` (project.go:257): gist id from the environment,
then the gist, then the named file in it; each failure propagates. -/
def fetchContentsFromGist (w : World) (filename : String) : Except String String :=
  match getSettingsSyncGistId w with
  | Except.error e => Except.error e
  | Except.ok gistId =>
    match w.gistGet gistId with
    | Except.error e => Except.error e
    | Except.ok files =>
      match lookupFile filename files with
      | none => Except.error (filename ++ " not found in gist")
      | some content => Except.ok content

/-- `filepath.Join` on the two operands used in this program.  (Go also
runs `Clean`; the claims never inspect the joined path itself, only whether
reading it succeeds, so slash-splicing suffices.) -/
def filepathJoin (a b : String) : String :=
  if a = "" then b else if b = "" then a else a ++ "/" ++ b

/-- `createEntryScriptCommands` (project.go:234): fixed script skeleton with
the user's post-create command, then the editor launch line. -/
def createEntryScriptCommands (devcontainer : DevContainer) : Except String (List String) :=
  Except.ok ["#!/bin/bash", "set -e", "set -x", devcontainer.PostCreateCommand,
    "code-server --user-data-dir /opt/code-server/.vscode --config /opt/code-server/config.yml --bind-addr 0.0.0.0:8080"]

/-- `createEntryScript` (project.go:240): join the script lines, embed them
base64-encoded in three Dockerfile RUN instructions. -/
def createEntryScript (devcontainer : DevContainer) : Except String String :=
  match createEntryScriptCommands devcontainer with
  | Except.error e => Except.error e
  | Except.ok entryScriptCommands =>
    let entryScriptContents := String.intercalate "\n" entryScriptCommands
    let b64EntryScriptContents := b64Encode entryScriptContents
    let dockerfileCommands := [
      "RUN mkdir -p /opt/code-server",
      "RUN echo \x27" ++ b64EntryScriptContents ++ "\x27 | base64 -d > /opt/code-server/entrypoint.sh",
      "RUN chmod +x /opt/code-server/entrypoint.sh"]
    Except.ok (String.intercalate "\n" dockerfileCommands)

/-- `createSettingJson` (project.go:292): local settings (empty map when
nil), remote settings merged in when the gist fetch and the JSON5 decode
both succeed (`mergo.Merge`, local values win unless empty), then the
serialized result embedded base64-encoded in two RUN instructions. -/
def createSettingJson (w : World) (devcontainer : DevContainer) : Except String String :=
  let settings := match devcontainer.Settings with
    | none => []
    | some s => s
  let settings := match fetchContentsFromGist w "settings.json" with
    | Except.ok contentsFromSync =>
      match w.json5ParseObj contentsFromSync with
      | Except.ok obj => mergoMergeObj settings obj
      | Except.error _ => settings
    | Except.error _ => settings
  match dumpAsJson (Json.obj settings) with
  | Except.error e => Except.error e
  | Except.ok settingsJsonContents =>
    let b64SettingsJsonContents := b64Encode settingsJsonContents
    let dockerfileCommands := [
      "RUN mkdir -p /opt/code-server/.vscode/User",
      "RUN echo \x27" ++ b64SettingsJsonContents ++ "\x27 | base64 -d > /opt/code-server/.vscode/User/settings.json"]
    Except.ok (String.intercalate "\n" dockerfileCommands)

/-- `[]KeyBinding` serialized the way `encoding/json` writes a struct
slice: an array of objects with the fields in declaration order. -/
def keyBindingsToJson (obj : List KeyBinding) : Json :=
  Json.arr (obj.map fun kb =>
    Json.obj [("key", Json.str kb.Key), ("command", Json.str kb.Command),
      ("when", Json.str kb.When)])

/-- One iteration of the filename loop in `createKeybindingsJson`
(project.go:325-349): `none` when this filename contributes nothing (fetch
failure, empty content, or decode failure) and `some instructions` when it
produces the two RUN instructions. -/
def keybindingsAttempt (w : World) (filename : String) : Option String :=
  match fetchContentsFromGist w filename with
  | Except.error _ => none
  | Except.ok contentsFromSync =>
    if contentsFromSync.length = 0 then none
    else
      match w.json5ParseKeyBindings contentsFromSync with
      | Except.error _ => none
      | Except.ok obj =>
        match dumpAsJson (keyBindingsToJson obj) with
        | Except.error _ => none
        | Except.ok keybindingsJsonContents =>
          let b64KeybindingsJsonContents := b64Encode keybindingsJsonContents
          some (String.intercalate "\n" [
            "RUN mkdir -p /opt/code-server/.vscode/User",
            "RUN echo \x27" ++ b64KeybindingsJsonContents ++ "\x27 | base64 -d > /opt/code-server/.vscode/User/keybindings.json"])

/-- `createKeybindingsJson` (project.go:319): try "keybindings.json" then
"keybindingsMac.json", first successful contribution wins; when every
attempt falls through the function returns the empty string without error. -/
def createKeybindingsJson (w : World) (devcontainer : DevContainer) : Except String String :=
  match keybindingsAttempt w "keybindings.json" with
  | some result => Except.ok result
  | none =>
    match keybindingsAttempt w "keybindingsMac.json" with
    | some result => Except.ok result
    | none => Except.ok ""

/-- `modifyCodeServerDirPermissions` (project.go:355). -/
def modifyCodeServerDirPermissions (devcontainer : DevContainer) : Except String String :=
  Except.ok "RUN chmod -R o+wr /opt/code-server/"

/-- `installExtensions` (project.go:359): one RUN instruction per requested
extension, newline-joined (empty string for no extensions). -/
def installExtensions (devcontainer : DevContainer) : Except String String :=
  Except.ok (String.intercalate "\n" (devcontainer.Extensions.map fun v =>
    "RUN code-server --install-extension " ++ v ++ " --extensions-dir /opt/code-server/.vscode/extensions/"))

/-- `createConfigYaml` (project.go:369): authentication-disabled server
configuration. -/
def createConfigYaml (devcontainer : DevContainer) : Except String String :=
  Except.ok "RUN echo \"auth: none\" > /opt/code-server/config.yml"

/-- `CodeServerInstall` (project.go:374). -/
def CodeServerInstall : String := "RUN curl -fsSL https://code-server.dev/install.sh | sh"

/-- `Entrypoint` (project.go:375). -/
def Entrypoint : String := "ENTRYPOINT [\"/opt/code-server/entrypoint.sh\"]"

/-- Error handling when a guarded sub-step fails in `wrapDockerFile`: the
error is logged and the contribution replaced by the empty string
(project.go:392-420). -/
def orEmpty : Except String String → String
  | Except.ok s => s
  | Except.error _ => ""

/-- The orchestration skeleton of `wrapDockerFile` (project.go:378-435),
parameterized over the results of the dockerfile read and the seven
sub-steps so that its error policy is stated once: a failed dockerfile read
or entry-script creation propagates; a failure of any of the other five
sub-steps degrades to an empty contribution; the pieces are then joined with
newlines in the fixed source order. -/
def wrapDockerFileCore (dockerfile : Except String String)
    (entryScript : Except String String)
    (extensions : Except String String)
    (permissions : Except String String)
    (configYaml : Except String String)
    (settingJson : Except String String)
    (keybindingsJson : Except String String) : Except String String :=
  match dockerfile with
  | Except.error e => Except.error e
  | Except.ok dockerfileContent =>
    match entryScript with
    | Except.error e => Except.error e
    | Except.ok entryScriptCreation =>
      let extensionsInstallation := orEmpty extensions
      let codeServerDirPermissionModification := orEmpty permissions
      let configYamlCreation := orEmpty configYaml
      let settingJsonCreation := orEmpty settingJson
      let keybindingsJsonCreation := orEmpty keybindingsJson
      Except.ok (String.intercalate "\n" [
        dockerfileContent,
        CodeServerInstall,
        settingJsonCreation,
        keybindingsJsonCreation,
        entryScriptCreation,
        extensionsInstallation,
        configYamlCreation,
        codeServerDirPermissionModification,
        Entrypoint])

/-- `wrapDockerFile` (project.go:378): read the user's base Dockerfile and
run every sub-step on the config. -/
def wrapDockerFile (w : World) (devcontainer : DevContainer) : Except String String :=
  wrapDockerFileCore
    (w.readFile (filepathJoin devcontainer.DirPath devcontainer.Build.Dockerfile))
    (createEntryScript devcontainer)
    (installExtensions devcontainer)
    (modifyCodeServerDirPermissions devcontainer)
    (createConfigYaml devcontainer)
    (createSettingJson w devcontainer)
    (createKeybindingsJson w devcontainer)
theorem lookup_setKey (k k' : String) (v : Json) (l : List (String × Json)) :
    lookupKey k (setKey k' v l) = if k' = k then some v else lookupKey k l := by
  induction l with
  | nil => simp [setKey, lookupKey]
  | cons hd tl ih =>
    obtain ⟨k2, v2⟩ := hd
    by_cases h2 : k2 = k'
    · subst h2
      by_cases h3 : k2 = k
      · subst h3
        simp [setKey, lookupKey]
      · simp [setKey, lookupKey, h3]
    · by_cases h3 : k2 = k
      · subst h3
        have h4 : ¬ (k' = k2) := fun h => h2 h.symm
        simp [setKey, lookupKey, h2, h4]
      · simp [setKey, lookupKey, h2, h3, ih]

theorem lookup_append (k : String) (l1 l2 : List (String × Json)) :
    lookupKey k (l1 ++ l2) =
      match lookupKey k l1 with
      | some v => some v
      | none => lookupKey k l2 := by
  induction l1 with
  | nil => simp [lookupKey]
  | cons hd tl ih =>
    obtain ⟨k2, v2⟩ := hd
    by_cases h2 : k2 = k
    · simp [lookupKey, h2]
    · simp [lookupKey, h2, ih]

theorem mergoStep_preserves (dst : List (String × Json)) (k' : String) (sv : Json)
    (k : String) (v : Json) (hv : lookupKey k dst = some v)
    (hne : isEmptyValue v = false) (hobj : ∀ s, v ≠ Json.obj s) :
    lookupKey k (mergoStep dst k' sv) = some v := by
  cases sv with
  | null => simpa [mergoStep] using hv
  | obj s =>
    simp only [mergoStep]
    split
    · rename_i d heq
      have hkk : ¬ k' = k := by
        intro he
        subst he
        rw [hv] at heq
        injection heq with h
        exact hobj d h
      split_ifs with h1 h2 <;>
        first
        | (rw [lookup_setKey, if_neg hkk]; exact hv)
        | exact hv
    · rename_i dv hnotobj heq
      split_ifs with h1
      · have hkk : ¬ k' = k := by
          intro he
          subst he
          rw [hv] at heq
          injection heq with h
          subst h
          simp [hne] at h1
        rw [lookup_setKey, if_neg hkk]; exact hv
      · exact hv
    · rename_i heq
      split_ifs with h1
      · rw [lookup_append, hv]
      · exact hv
  | bool b =>
    simp only [mergoStep]
    split
    · rename_i dv heq
      split_ifs with h1
      · have hkk : ¬ k' = k := by
          intro he; subst he; rw [hv] at heq; injection heq with h; subst h
          simp [hne] at h1
        rw [lookup_setKey, if_neg hkk]; exact hv
      · exact hv
    · rename_i heq
      split_ifs with h1
      · rw [lookup_append, hv]
      · exact hv
  | num n =>
    simp only [mergoStep]
    split
    · rename_i dv heq
      split_ifs with h1
      · have hkk : ¬ k' = k := by
          intro he; subst he; rw [hv] at heq; injection heq with h; subst h
          simp [hne] at h1
        rw [lookup_setKey, if_neg hkk]; exact hv
      · exact hv
    · rename_i heq
      split_ifs with h1
      · rw [lookup_append, hv]
      · exact hv
  | str s2 =>
    simp only [mergoStep]
    split
    · rename_i dv heq
      split_ifs with h1
      · have hkk : ¬ k' = k := by
          intro he; subst he; rw [hv] at heq; injection heq with h; subst h
          simp [hne] at h1
        rw [lookup_setKey, if_neg hkk]; exact hv
      · exact hv
    · rename_i heq
      split_ifs with h1
      · rw [lookup_append, hv]
      · exact hv
  | arr xs =>
    simp only [mergoStep]
    split
    · rename_i dv heq
      split_ifs with h1
      · have hkk : ¬ k' = k := by
          intro he; subst he; rw [hv] at heq; injection heq with h; subst h
          simp [hne] at h1
        rw [lookup_setKey, if_neg hkk]; exact hv
      · exact hv
    · rename_i heq
      split_ifs with h1
      · rw [lookup_append, hv]
      · exact hv

theorem mergoMergeObj_preserves (src : List (String × Json)) :
    ∀ (dst : List (String × Json)) (k : String) (v : Json),
      lookupKey k dst = some v → isEmptyValue v = false → (∀ s, v ≠ Json.obj s) →
      lookupKey k (mergoMergeObj dst src) = some v := by
  induction src with
  | nil =>
    intro dst k v hv _ _
    simpa [mergoMergeObj] using hv
  | cons hd tl ih =>
    obtain ⟨k', sv⟩ := hd
    intro dst k v hv hne hobj
    simp only [mergoMergeObj]
    exact ih _ _ _ (mergoStep_preserves dst k' sv k v hv hne hobj) hne hobj

theorem mergoStep_other (dst : List (String × Json)) (k' : String) (sv : Json)
    (k : String) (hkk : ¬ k' = k) :
    lookupKey k (mergoStep dst k' sv) = lookupKey k dst := by
  have happ : ∀ w : Json, lookupKey k (dst ++ [(k', w)]) = lookupKey k dst := by
    intro w
    rw [lookup_append]
    cases h : lookupKey k dst with
    | some v => rfl
    | none => simp [lookupKey, hkk]
  cases sv with
  | null => simp [mergoStep]
  | obj s =>
    simp only [mergoStep]
    split
    · split_ifs <;> first | (rw [lookup_setKey, if_neg hkk]) | rfl
    · split_ifs
      · rw [lookup_setKey, if_neg hkk]
      · rfl
    · split_ifs
      · exact happ _
      · rfl
  | bool b =>
    simp only [mergoStep]
    split
    · split_ifs
      · rw [lookup_setKey, if_neg hkk]
      · rfl
    · split_ifs
      · exact happ _
      · rfl
  | num n =>
    simp only [mergoStep]
    split
    · split_ifs
      · rw [lookup_setKey, if_neg hkk]
      · rfl
    · split_ifs
      · exact happ _
      · rfl
  | str s2 =>
    simp only [mergoStep]
    split
    · split_ifs
      · rw [lookup_setKey, if_neg hkk]
      · rfl
    · split_ifs
      · exact happ _
      · rfl
  | arr xs =>
    simp only [mergoStep]
    split
    · split_ifs
      · rw [lookup_setKey, if_neg hkk]
      · rfl
    · split_ifs
      · exact happ _
      · rfl

theorem mergoMergeObj_untouched (src : List (String × Json)) :
    ∀ (dst : List (String × Json)) (k : String), k ∉ src.map Prod.fst →
      lookupKey k (mergoMergeObj dst src) = lookupKey k dst := by
  induction src with
  | nil => intro dst k _; rfl
  | cons hd tl ih =>
    obtain ⟨k', sv⟩ := hd
    intro dst k h
    have hkk : ¬ k' = k := by
      intro he
      exact h (by simp [he])
    have htl : k ∉ tl.map Prod.fst := by
      intro hmem
      exact h (by simp [hmem])
    simp only [mergoMergeObj]
    rw [ih _ _ htl, mergoStep_other _ _ _ _ hkk]

theorem mergoStep_self_absent (dst : List (String × Json)) (k : String) (sv : Json)
    (h : lookupKey k dst = none) :
    lookupKey k (mergoStep dst k sv) = none ∨
    lookupKey k (mergoStep dst k sv) = some sv := by
  have happ : ∀ w : Json, lookupKey k (dst ++ [(k, w)]) = some w := by
    intro w
    rw [lookup_append, h]
    simp [lookupKey]
  cases sv with
  | null => left; simpa [mergoStep] using h
  | obj s =>
    simp only [mergoStep]
    split
    · rename_i d heq
      rw [h] at heq
      cases heq
    · rename_i dv hnotobj heq
      rw [h] at heq
      cases heq
    · split_ifs with h1
      · right; exact happ _
      · left; exact h
  | bool b =>
    simp only [mergoStep]
    split
    · rename_i dv heq
      rw [h] at heq
      cases heq
    · split_ifs with h1
      · right; exact happ _
      · left; exact h
  | num n =>
    simp only [mergoStep]
    split
    · rename_i dv heq
      rw [h] at heq
      cases heq
    · split_ifs with h1
      · right; exact happ _
      · left; exact h
  | str s2 =>
    simp only [mergoStep]
    split
    · rename_i dv heq
      rw [h] at heq
      cases heq
    · split_ifs with h1
      · right; exact happ _
      · left; exact h
  | arr xs =>
    simp only [mergoStep]
    split
    · rename_i dv heq
      rw [h] at heq
      cases heq
    · split_ifs with h1
      · right; exact happ _
      · left; exact h

theorem mergoMergeObj_absent (src : List (String × Json)) :
    ∀ (dst : List (String × Json)) (k : String),
      (src.map Prod.fst).Nodup → lookupKey k dst = none →
      lookupKey k (mergoMergeObj dst src) = none ∨
      lookupKey k (mergoMergeObj dst src) = lookupKey k src := by
  induction src with
  | nil =>
    intro dst k _ h
    left
    simpa [mergoMergeObj] using h
  | cons hd tl ih =>
    obtain ⟨k', sv⟩ := hd
    intro dst k hnodup hnone
    have hnodup2 : k' ∉ tl.map Prod.fst ∧ (tl.map Prod.fst).Nodup := by
      rw [List.map_cons] at hnodup
      exact List.nodup_cons.mp hnodup
    simp only [mergoMergeObj]
    by_cases hkk : k' = k
    · subst hkk
      have hk_tl : k' ∉ tl.map Prod.fst := hnodup2.1
      rw [mergoMergeObj_untouched tl _ _ hk_tl]
      rcases mergoStep_self_absent dst k' sv hnone with h | h
      · left; exact h
      · right
        rw [h]
        simp [lookupKey]
    · have h1 : lookupKey k (mergoStep dst k' sv) = none := by
        rw [mergoStep_other _ _ _ _ hkk]; exact hnone
      rcases ih (mergoStep dst k' sv) k hnodup2.2 h1 with h | h
      · left; exact h
      · right
        rw [h]
        simp [lookupKey, hkk]

/-- Claim C5 counterexample: the key "a" is present locally (bound to JSON
null, an empty value in mergo's sense), yet merging binds it to the remote
value, so merging does not preserve every locally present key's value. -/
theorem mergo_overwrites_empty_local :
    lookupKey "a" [("a", Json.null)] = some Json.null ∧
    mergoMergeObj [("a", Json.null)] [("a", Json.bool true)] = [("a", Json.bool true)] ∧
    Json.bool true ≠ Json.null :=
  ⟨rfl, rfl, fun h => Json.noConfusion h⟩

/-- Claim C5 (amended): merging remote settings into local settings
preserves the local binding of every key whose local value is non-empty in
mergo's sense (not null/false/0/""/empty array/empty object) and not itself
an object (objects are deep-merged instead); and, for source maps with
distinct keys (Go maps), a key absent locally is, after the merge, either
still absent or bound to exactly the remote value. -/
theorem mergo_local_precedence :
    (∀ (dst src : List (String × Json)) (k : String) (v : Json),
      lookupKey k dst = some v → isEmptyValue v = false → (∀ s, v ≠ Json.obj s) →
      lookupKey k (mergoMergeObj dst src) = some v)
    ∧ (∀ (dst src : List (String × Json)) (k : String),
      (src.map Prod.fst).Nodup → lookupKey k dst = none →
      lookupKey k (mergoMergeObj dst src) = none ∨
      lookupKey k (mergoMergeObj dst src) = lookupKey k src) :=
  ⟨fun dst src k v hv hne hobj => mergoMergeObj_preserves src dst k v hv hne hobj,
   fun dst src k hnodup hnone => mergoMergeObj_absent src dst k hnodup hnone⟩

/-- Witness for the amended claim C5 at concrete inputs: a non-empty local
string survives a conflicting remote value, and a fresh remote key is added
with exactly the remote value. -/
theorem mergo_local_precedence_witness :
    lookupKey "a" (mergoMergeObj [("a", Json.str "x")] [("a", Json.str "y")])
      = some (Json.str "x")
    ∧ (lookupKey "b" (mergoMergeObj [("a", Json.str "x")] [("b", Json.num 3)]) = none
      ∨ lookupKey "b" (mergoMergeObj [("a", Json.str "x")] [("b", Json.num 3)])
        = lookupKey "b" [("b", Json.num 3)]) :=
  ⟨mergo_local_precedence.1 [("a", Json.str "x")] [("a", Json.str "y")] "a" (Json.str "x")
      rfl rfl (fun s h => Json.noConfusion h),
   mergo_local_precedence.2 [("a", Json.str "x")] [("b", Json.num 3)] "b"
      (by decide) rfl⟩

/-- The local settings map used by `createSettingJson`: the config's
settings, with a nil map replaced by an empty one (project.go:293-296). -/
def localSettings (dc : DevContainer) : List (String × Json) :=
  match dc.Settings with
  | none => []
  | some s => s

/-- A concrete world: no environment variables set, no network, and a
one-line base Dockerfile at every path. -/
def sampleWorld : World where
  getenv := fun _ => ""
  gistGet := fun _ => Except.error "network unavailable"
  readFile := fun _ => Except.ok "FROM ubuntu"
  json5ParseObj := fun _ => Except.error "not reached"
  json5ParseKeyBindings := fun _ => Except.error "not reached"

/-- A concrete devcontainer config exercising every field the claims
mention. -/
def sampleDevContainer : DevContainer where
  DirPath := "/proj/.devcontainer"
  Name := "Demo App"
  Build := { Dockerfile := "Dockerfile", Context := ".", Args := [] }
  RunArgs := ["--gpus", "all"]
  WorkspaceMount := ""
  WorkspaceFolder := ""
  Settings := none
  Extensions := ["ext.a"]
  ForwardPorts := ["3000:3000"]
  PortsAttributes := []
  PostCreateCommand := "npm install"
  RemoteUser := "dev"

/-- Claim C1: whenever the base Dockerfile is readable, `wrapDockerFile`
returns the user's Dockerfile content followed, newline-joined and in this
fixed order, by the editor-install instruction, the settings-file
instructions, the keybindings-file instructions, the startup-script
instructions, the per-extension install instructions, the
authentication-disabled config instruction, the permission-relaxing
instruction, and finally the ENTRYPOINT declaration. -/
theorem wrapDockerFile_order (w : World) (dc : DevContainer)
    (content sJ kJ eS xI cY pM : String)
    (hread : w.readFile (filepathJoin dc.DirPath dc.Build.Dockerfile) = Except.ok content)
    (hs : createSettingJson w dc = Except.ok sJ)
    (hk : createKeybindingsJson w dc = Except.ok kJ)
    (he : createEntryScript dc = Except.ok eS)
    (hx : installExtensions dc = Except.ok xI)
    (hc : createConfigYaml dc = Except.ok cY)
    (hp : modifyCodeServerDirPermissions dc = Except.ok pM) :
    wrapDockerFile w dc = Except.ok (String.intercalate "\n"
      [content, CodeServerInstall, sJ, kJ, eS, xI, cY, pM, Entrypoint]) := by
  unfold wrapDockerFile wrapDockerFileCore
  rw [hread, he]
  simp only [orEmpty, hs, hk, hx, hc, hp]

set_option maxRecDepth 100000 in
/-- Witness for claim C1 at a concrete world and config; every hypothesis
evaluates by reflexivity, and the conclusion exhibits each sub-step's
instruction text. -/
theorem wrapDockerFile_order_witness :
    wrapDockerFile sampleWorld sampleDevContainer = Except.ok (String.intercalate "\n"
      ["FROM ubuntu",
       CodeServerInstall,
       "RUN mkdir -p /opt/code-server/.vscode/User\nRUN echo \x27e30K\x27 | base64 -d > /opt/code-server/.vscode/User/settings.json",
       "",
       "RUN mkdir -p /opt/code-server\nRUN echo \x27IyEvYmluL2Jhc2gKc2V0IC1lCnNldCAteApucG0gaW5zdGFsbApjb2RlLXNlcnZlciAtLXVzZXItZGF0YS1kaXIgL29wdC9jb2RlLXNlcnZlci8udnNjb2RlIC0tY29uZmlnIC9vcHQvY29kZS1zZXJ2ZXIvY29uZmlnLnltbCAtLWJpbmQtYWRkciAwLjAuMC4wOjgwODA=\x27 | base64 -d > /opt/code-server/entrypoint.sh\nRUN chmod +x /opt/code-server/entrypoint.sh",
       "RUN code-server --install-extension ext.a --extensions-dir /opt/code-server/.vscode/extensions/",
       "RUN echo \"auth: none\" > /opt/code-server/config.yml",
       "RUN chmod -R o+wr /opt/code-server/",
       Entrypoint]) :=
  wrapDockerFile_order sampleWorld sampleDevContainer
    "FROM ubuntu"
    "RUN mkdir -p /opt/code-server/.vscode/User\nRUN echo \x27e30K\x27 | base64 -d > /opt/code-server/.vscode/User/settings.json"
    ""
    "RUN mkdir -p /opt/code-server\nRUN echo \x27IyEvYmluL2Jhc2gKc2V0IC1lCnNldCAteApucG0gaW5zdGFsbApjb2RlLXNlcnZlciAtLXVzZXItZGF0YS1kaXIgL29wdC9jb2RlLXNlcnZlci8udnNjb2RlIC0tY29uZmlnIC9vcHQvY29kZS1zZXJ2ZXIvY29uZmlnLnltbCAtLWJpbmQtYWRkciAwLjAuMC4wOjgwODA=\x27 | base64 -d > /opt/code-server/entrypoint.sh\nRUN chmod +x /opt/code-server/entrypoint.sh"
    "RUN code-server --install-extension ext.a --extensions-dir /opt/code-server/.vscode/extensions/"
    "RUN echo \"auth: none\" > /opt/code-server/config.yml"
    "RUN chmod -R o+wr /opt/code-server/"
    rfl rfl rfl rfl rfl rfl rfl

/-- Claim C3 counterexample: a failing startup-script sub-step is not
caught and replaced by an empty contribution — `wrapDockerFile`'s skeleton
propagates it, so this sub-step failure aborts the build instead of
yielding a build definition. -/
theorem wrapDockerFile_entry_failure_aborts :
    wrapDockerFileCore (Except.ok "FROM ubuntu") (Except.error "entry script failure")
      (Except.ok "ext") (Except.ok "perm") (Except.ok "conf") (Except.ok "sett")
      (Except.ok "keyb")
      = Except.error "entry script failure" := rfl

/-- Claim C3 (amended): failures of the five guarded sub-steps (extensions,
permissions, config, settings, keybindings) are each caught and replaced by
an empty contribution, so the build definition is still produced; the
startup-script sub-step is not guarded — its error would propagate — but it
is infallible, so `wrapDockerFile` nevertheless returns a build definition
whenever the base Dockerfile is readable. -/
theorem wrapDockerFile_guarded_failures :
    (∀ content entry e1 e2 e3 e4 e5 : String,
      wrapDockerFileCore (Except.ok content) (Except.ok entry) (Except.error e1)
        (Except.error e2) (Except.error e3) (Except.error e4) (Except.error e5)
      = Except.ok (String.intercalate "\n"
          [content, CodeServerInstall, "", "", entry, "", "", "", Entrypoint]))
    ∧ (∀ dc : DevContainer, ∃ s, createEntryScript dc = Except.ok s)
    ∧ (∀ (w : World) (dc : DevContainer) (content : String),
      w.readFile (filepathJoin dc.DirPath dc.Build.Dockerfile) = Except.ok content →
      ∃ s, wrapDockerFile w dc = Except.ok s) := by
  refine ⟨fun content entry e1 e2 e3 e4 e5 => rfl, fun dc => ⟨_, rfl⟩, ?_⟩
  intro w dc content hread
  have hk : ∃ kJ, createKeybindingsJson w dc = Except.ok kJ := by
    unfold createKeybindingsJson
    cases keybindingsAttempt w "keybindings.json" with
    | some r => exact ⟨r, rfl⟩
    | none =>
      cases keybindingsAttempt w "keybindingsMac.json" with
      | some r => exact ⟨r, rfl⟩
      | none => exact ⟨"", rfl⟩
  obtain ⟨kJ, hkJ⟩ := hk
  exact ⟨_, wrapDockerFile_order w dc content _ kJ _ _ _ _ hread rfl hkJ rfl rfl rfl rfl⟩

theorem fetch_fails_when_unset (w : World) (filename : String)
    (h : w.getenv "SETTINGS_SYNC_GIST_ID" = "") :
    fetchContentsFromGist w filename = Except.error "SETTINGS_SYNC_GIST_ID is not set" := by
  unfold fetchContentsFromGist getSettingsSyncGistId
  rw [h]
  rfl

/-- Claim C4 counterexample: with the remote-settings environment variable
unset, the settings step still contributes a non-empty instruction (it
writes the local settings), contradicting "each contribute nothing (an
empty instruction)". -/
theorem settings_step_nonempty_when_unset :
    sampleWorld.getenv "SETTINGS_SYNC_GIST_ID" = ""
    ∧ createSettingJson sampleWorld sampleDevContainer = Except.ok
        "RUN mkdir -p /opt/code-server/.vscode/User\nRUN echo \x27e30K\x27 | base64 -d > /opt/code-server/.vscode/User/settings.json"
    ∧ ("RUN mkdir -p /opt/code-server/.vscode/User\nRUN echo \x27e30K\x27 | base64 -d > /opt/code-server/.vscode/User/settings.json" : String) ≠ "" :=
  ⟨rfl, rfl, by decide⟩

/-- Claim C4 (amended): if `SETTINGS_SYNC_GIST_ID` is unset then the
keybindings step contributes nothing and does not error, while the settings
step ignores the remote source and returns, without error, exactly the
(non-empty) instructions derived from the local settings alone. -/
theorem settings_steps_no_gist (w : World) (dc : DevContainer)
    (h : w.getenv "SETTINGS_SYNC_GIST_ID" = "") :
    createKeybindingsJson w dc = Except.ok ""
    ∧ createSettingJson w dc = Except.ok (String.intercalate "\n"
        ["RUN mkdir -p /opt/code-server/.vscode/User",
         "RUN echo \x27"
           ++ b64Encode (renderJson (sortJson (Json.obj (localSettings dc))) 0 ++ "\n")
           ++ "\x27 | base64 -d > /opt/code-server/.vscode/User/settings.json"])
    ∧ createSettingJson w dc ≠ Except.ok "" := by
  have hkb : createKeybindingsJson w dc = Except.ok "" := by
    unfold createKeybindingsJson keybindingsAttempt
    rw [fetch_fails_when_unset w _ h, fetch_fails_when_unset w _ h]
  have hset : createSettingJson w dc = Except.ok (String.intercalate "\n"
      ["RUN mkdir -p /opt/code-server/.vscode/User",
       "RUN echo \x27"
         ++ b64Encode (renderJson (sortJson (Json.obj (localSettings dc))) 0 ++ "\n")
         ++ "\x27 | base64 -d > /opt/code-server/.vscode/User/settings.json"]) := by
    unfold createSettingJson localSettings
    rw [fetch_fails_when_unset w _ h]
    rfl
  refine ⟨hkb, hset, ?_⟩
  rw [hset]
  intro heq
  injection heq with heq
  have hlen := congrArg String.length heq
  rw [show String.intercalate "\n"
      ["RUN mkdir -p /opt/code-server/.vscode/User",
       "RUN echo \x27"
         ++ b64Encode (renderJson (sortJson (Json.obj (localSettings dc))) 0 ++ "\n")
         ++ "\x27 | base64 -d > /opt/code-server/.vscode/User/settings.json"]
      = "RUN mkdir -p /opt/code-server/.vscode/User" ++ "\n"
        ++ ("RUN echo \x27"
         ++ b64Encode (renderJson (sortJson (Json.obj (localSettings dc))) 0 ++ "\n")
         ++ "\x27 | base64 -d > /opt/code-server/.vscode/User/settings.json") from rfl] at hlen
  rw [String.length_append, String.length_append] at hlen
  have h42 : ("RUN mkdir -p /opt/code-server/.vscode/User").length = 42 := by decide
  have h0 : ("" : String).length = 0 := by decide
  omega

/-- Witness for the amended claim C4 at a concrete world and config. -/
theorem settings_steps_no_gist_witness :
    createKeybindingsJson sampleWorld sampleDevContainer = Except.ok ""
    ∧ createSettingJson sampleWorld sampleDevContainer = Except.ok (String.intercalate "\n"
        ["RUN mkdir -p /opt/code-server/.vscode/User",
         "RUN echo \x27"
           ++ b64Encode (renderJson (sortJson (Json.obj (localSettings sampleDevContainer))) 0 ++ "\n")
           ++ "\x27 | base64 -d > /opt/code-server/.vscode/User/settings.json"])
    ∧ createSettingJson sampleWorld sampleDevContainer ≠ Except.ok "" :=
  settings_steps_no_gist sampleWorld sampleDevContainer rfl

/-- Claim C10: with nil-or-empty local settings and no usable remote
settings (fetch failure or undecodable content), the settings step still
contributes a directory-creation instruction plus a write instruction whose
base64 payload is the encoding of the serialized empty JSON object, and in
particular is non-empty. -/
theorem createSettingJson_empty_local (w : World) (dc : DevContainer)
    (hs : dc.Settings = none ∨ dc.Settings = some [])
    (hremote : (∃ e, fetchContentsFromGist w "settings.json" = Except.error e)
      ∨ (∃ c e, fetchContentsFromGist w "settings.json" = Except.ok c
          ∧ w.json5ParseObj c = Except.error e)) :
    createSettingJson w dc = Except.ok
        ("RUN mkdir -p /opt/code-server/.vscode/User\nRUN echo \x27"
          ++ b64Encode "\x7b\x7d\n"
          ++ "\x27 | base64 -d > /opt/code-server/.vscode/User/settings.json")
    ∧ dumpAsJson (Json.obj []) = Except.ok "\x7b\x7d\n"
    ∧ b64Encode "\x7b\x7d\n" = "e30K"
    ∧ createSettingJson w dc ≠ Except.ok "" := by
  have hmain : createSettingJson w dc = Except.ok
      ("RUN mkdir -p /opt/code-server/.vscode/User\nRUN echo \x27"
        ++ b64Encode "\x7b\x7d\n"
        ++ "\x27 | base64 -d > /opt/code-server/.vscode/User/settings.json") := by
    unfold createSettingJson
    rcases hs with hs | hs <;> rw [hs] <;>
      rcases hremote with ⟨e, he⟩ | ⟨c, e, hc, hp⟩
    · rw [he]; rfl
    · rw [hc]
      simp only [hp]
      rfl
    · rw [he]; rfl
    · rw [hc]
      simp only [hp]
      rfl
  refine ⟨hmain, rfl, rfl, ?_⟩
  rw [hmain]
  intro heq
  injection heq with heq
  have hlen := congrArg String.length heq
  rw [String.length_append, String.length_append] at hlen
  have h1 : ("RUN mkdir -p /opt/code-server/.vscode/User\nRUN echo \x27").length = 53 := by
    decide
  have h0 : ("" : String).length = 0 := by decide
  omega

/-- Witness for claim C10 at a concrete world and config (environment
variable unset, nil local settings). -/
theorem createSettingJson_empty_local_witness :
    createSettingJson sampleWorld sampleDevContainer = Except.ok
        ("RUN mkdir -p /opt/code-server/.vscode/User\nRUN echo \x27"
          ++ b64Encode "\x7b\x7d\n"
          ++ "\x27 | base64 -d > /opt/code-server/.vscode/User/settings.json")
    ∧ dumpAsJson (Json.obj []) = Except.ok "\x7b\x7d\n"
    ∧ b64Encode "\x7b\x7d\n" = "e30K"
    ∧ createSettingJson sampleWorld sampleDevContainer ≠ Except.ok "" :=
  createSettingJson_empty_local sampleWorld sampleDevContainer (Or.inl rfl)
    (Or.inl ⟨"SETTINGS_SYNC_GIST_ID is not set", rfl⟩)

def identStartChar (c : Char) : Bool := c.isAlpha || c = '_'

def identChar (c : Char) : Bool := c.isAlphanum || c = '_'

def consE (c : Char) : Except String (List Char) → Except String (List Char)
  | Except.ok l => Except.ok (c :: l)
  | Except.error e => Except.error e

def appendE (l1 : List Char) : Except String (List Char) → Except String (List Char)
  | Except.ok l => Except.ok (l1 ++ l)
  | Except.error e => Except.error e

/-- Expansion of one parsed variable reference: buildkite/interpolate's
plain expansions substitute the variable's value, with the empty string for
a variable absent from the environment. -/
def envLookup (env : String → Option String) (acc : List Char) : List Char :=
  ((env (String.mk acc)).getD "").data

/-- Scanner state for `interpStep`: plain text, or accumulating a bare
`$identifier`, or accumulating a braced variable reference. -/
inductive IMode where
  | text : IMode
  | ident : List Char → IMode
  | brace : List Char → IMode

/-- The scanner of `buildkite/interpolate.Interpolate` as one character
transition function: `$$` and an escaped dollar yield a literal `$`, `$`
followed by an identifier or by a braced identifier becomes an expansion,
a `$` followed by neither is a parse error, and all other characters are
copied.  (The library's default/substring expansion forms are not used by
this repository's two fixed templates and are not modelled.) -/
def interpStep (env : String → Option String) : IMode → List Char → Except String (List Char)
  | IMode.text, [] => Except.ok []
  | IMode.text, '\\' :: '$' :: rest => consE '$' (interpStep env IMode.text rest)
  | IMode.text, '$' :: '$' :: rest => consE '$' (interpStep env IMode.text rest)
  | IMode.text, '$' :: '\x7b' :: rest => interpStep env (IMode.brace []) rest
  | IMode.text, '$' :: c :: rest =>
    if identStartChar c then interpStep env (IMode.ident [c]) rest
    else Except.error "Expected identifier or brace after $"
  | IMode.text, ['$'] => Except.error "Expected identifier or brace after $"
  | IMode.text, c :: rest => consE c (interpStep env IMode.text rest)
  | IMode.ident acc, [] => Except.ok (envLookup env acc)
  | IMode.ident acc, '\\' :: '$' :: rest =>
    appendE (envLookup env acc) (consE '$' (interpStep env IMode.text rest))
  | IMode.ident acc, '$' :: '$' :: rest =>
    appendE (envLookup env acc) (consE '$' (interpStep env IMode.text rest))
  | IMode.ident acc, '$' :: '\x7b' :: rest =>
    appendE (envLookup env acc) (interpStep env (IMode.brace []) rest)
  | IMode.ident acc, '$' :: c :: rest =>
    if identStartChar c then
      appendE (envLookup env acc) (interpStep env (IMode.ident [c]) rest)
    else Except.error "Expected identifier or brace after $"
  | IMode.ident _, ['$'] => Except.error "Expected identifier or brace after $"
  | IMode.ident acc, c :: rest =>
    if identChar c then interpStep env (IMode.ident (acc ++ [c])) rest
    else appendE (envLookup env acc) (consE c (interpStep env IMode.text rest))
  | IMode.brace _, [] => Except.error "Expected closing brace on variable expansion"
  | IMode.brace acc, '\x7d' :: rest =>
    if acc.isEmpty then Except.error "Expected identifier in variable expansion"
    else appendE (envLookup env acc) (interpStep env IMode.text rest)
  | IMode.brace acc, c :: rest =>
    if identChar c then interpStep env (IMode.brace (acc ++ [c])) rest
    else Except.error "Invalid character in variable expansion"

/-- `interpolate.Interpolate(env, str)` over a map environment. -/
def interpolate (env : String → Option String) (s : String) : Except String String :=
  match interpStep env IMode.text s.data with
  | Except.error e => Except.error e
  | Except.ok l => Except.ok (String.mk l)

/-- Trailing path separators removed (part of Go `filepath.Clean` as it
acts on the already-clean inputs this program produces). -/
def dropTrailingSlashes (cs : List Char) : List Char :=
  (cs.reverse.dropWhile (· = '/')).reverse

/-- The suffix after the final path separator. -/
def afterLastSlash (cs : List Char) : List Char :=
  (cs.reverse.takeWhile (· ≠ '/')).reverse

/-- The prefix up to and including the final path separator. -/
def upToLastSlash (cs : List Char) : List Char :=
  (cs.reverse.dropWhile (· ≠ '/')).reverse

/-- Go `filepath.Base` on slash-separated paths: "." for the empty path,
trailing separators dropped, then the last element ("/" when nothing is
left). -/
def goBase (path : String) : String :=
  if path = "" then "."
  else
    if (dropTrailingSlashes path.data).isEmpty then "/"
    else String.mk (afterLastSlash (dropTrailingSlashes path.data))

/-- Go `filepath.Dir` on slash-separated paths: everything before the final
element, cleaned of trailing separators; "." when there is no separator and
"/" when only separators remain.  (Go additionally runs `Clean`; the inputs
here come from `filepath.Abs` and contain no dot segments.) -/
def goDir (path : String) : String :=
  if path.data.all (· ≠ '/') then "."
  else
    if (dropTrailingSlashes (upToLastSlash path.data)).isEmpty then "/"
    else String.mk (dropTrailingSlashes (upToLastSlash path.data))

/-- `getMapEnv` (project.go:196): the two-variable interpolation
environment built from the devcontainer directory: `localWorkspaceFolder`
is its parent directory and `localWorkspaceFolderBasename` that parent's
base name. -/
def getMapEnv (devcontainer : DevContainer) : String → Option String :=
  fun key =>
    if key = "localWorkspaceFolder" then some (goDir devcontainer.DirPath)
    else if key = "localWorkspaceFolderBasename" then
      some (goBase (goDir devcontainer.DirPath))
    else none

/-- `getWorkspaceBinding` (project.go:214): the configured mount, or the
documented default template when unset, interpolated. -/
def getWorkspaceBinding (devcontainer : DevContainer) : Except String String :=
  let workspaceMount :=
    if devcontainer.WorkspaceMount = "" then
      "source=${localWorkspaceFolder},target=/workspace/${localWorkspaceFolderBasename},type=bind"
    else devcontainer.WorkspaceMount
  interpolate (getMapEnv devcontainer) workspaceMount

/-- `getWorkspaceFolder` (project.go:224): the configured folder, or the
documented default template when unset, interpolated. -/
def getWorkspaceFolder (devcontainer : DevContainer) : Except String String :=
  let workspaceFolder :=
    if devcontainer.WorkspaceFolder = "" then "/workspace/${localWorkspaceFolderBasename}"
    else devcontainer.WorkspaceFolder
  interpolate (getMapEnv devcontainer) workspaceFolder

/-- Claim C6: with both workspaceMount and workspaceFolder empty, the
resolver interpolates exactly the documented default templates. -/
theorem workspace_defaults (dc : DevContainer)
    (hm : dc.WorkspaceMount = "") (hf : dc.WorkspaceFolder = "") :
    getWorkspaceBinding dc = interpolate (getMapEnv dc)
        "source=${localWorkspaceFolder},target=/workspace/${localWorkspaceFolderBasename},type=bind"
    ∧ getWorkspaceFolder dc = interpolate (getMapEnv dc)
        "/workspace/${localWorkspaceFolderBasename}" := by
  unfold getWorkspaceBinding getWorkspaceFolder
  rw [hm, hf]
  exact ⟨rfl, rfl⟩

/-- Witness for claim C6 at a concrete config, with the interpolated
results evaluated. -/
theorem workspace_defaults_witness :
    (getWorkspaceBinding sampleDevContainer = interpolate (getMapEnv sampleDevContainer)
        "source=${localWorkspaceFolder},target=/workspace/${localWorkspaceFolderBasename},type=bind"
      ∧ getWorkspaceFolder sampleDevContainer = interpolate (getMapEnv sampleDevContainer)
        "/workspace/${localWorkspaceFolderBasename}")
    ∧ getWorkspaceBinding sampleDevContainer
        = Except.ok "source=/proj,target=/workspace/proj,type=bind"
    ∧ getWorkspaceFolder sampleDevContainer = Except.ok "/workspace/proj" :=
  ⟨workspace_defaults sampleDevContainer rfl rfl, rfl, rfl⟩

theorem interpStep_no_dollar (env : String → Option String) :
    ∀ cs : List Char, '$' ∉ cs → interpStep env IMode.text cs = Except.ok cs := by
  intro cs
  induction cs with
  | nil => intro _; rfl
  | cons c rest ih =>
    intro h
    have hc : c ≠ '$' := fun he => h (by simp [he])
    have hrest : '$' ∉ rest := fun hm => h (by simp [hm])
    unfold interpStep
    split
    all_goals try (exfalso; simp_all; done)
    · rename_i heq1 heq2
      injection heq2 with h1 h2
      subst h1
      subst h2
      rw [ih hrest]
      rfl

/-- Claim C7: interpolation is the identity on strings with no variable
references (no `$` at all): it succeeds and returns the string unchanged,
for any environment; in particular, re-interpolating an already-interpolated
workspace folder that contains no variable references returns it unchanged. -/
theorem interpolate_idempotent :
    (∀ (env : String → Option String) (s : String),
      '$' ∉ s.data → interpolate env s = Except.ok s)
    ∧ (∀ (dc : DevContainer) (out : String),
      getWorkspaceFolder dc = Except.ok out → '$' ∉ out.data →
      interpolate (getMapEnv dc) out = Except.ok out) := by
  have hmain : ∀ (env : String → Option String) (s : String),
      '$' ∉ s.data → interpolate env s = Except.ok s := by
    intro env s hs
    unfold interpolate
    rw [interpStep_no_dollar env s.data hs]
  exact ⟨hmain, fun dc out _ hout => hmain (getMapEnv dc) out hout⟩

/-- Witness for claim C7: the already-resolved sample workspace folder
re-interpolates to itself. -/
theorem interpolate_idempotent_witness :
    interpolate (getMapEnv sampleDevContainer) "/workspace/proj"
      = Except.ok "/workspace/proj" :=
  interpolate_idempotent.2 sampleDevContainer "/workspace/proj" rfl (by decide)

/-- A second config sharing the sample's display name but nothing
path-related. -/
def sampleDevContainerB : DevContainer :=
  { sampleDevContainer with DirPath := "/elsewhere/.devcontainer", Extensions := [] }

/-- Witness for claim C2: two configs with the same display name get the
same tag, evaluated on the sample config. -/
theorem getImageTag_spec_witness :
    getImageTag sampleDevContainer = getImageTag sampleDevContainerB
    ∧ getImageTag sampleDevContainer = "demo_app_code_coder_server"
    ∧ ('d'.isUpper = false ∧ 'd' ≠ ' ') :=
  ⟨(getImageTag_spec sampleDevContainer).2.2 sampleDevContainerB rfl, rfl,
   (getImageTag_spec sampleDevContainer).2.1 'd' (by decide)⟩

/-- The rune alphabet of `makeRandomString` (project.go:438). -/
def containerLetters : List Char :=
  "abcdefghijklmnopqrstuvwxyzABCDEFGHIJKLMNOPQRSTUVWXYZ".data

/-- `makeRandomString` (project.go:437): sixteen characters drawn from the
letter alphabet.  The process RNG is modelled as the stream `draws`;
`rand.Intn(52)` always returns a value below 52, which the reduction mod 52
enforces for arbitrary streams. -/
def makeRandomString (draws : Nat → Nat) : String :=
  String.mk ((List.range 16).map fun i => containerLetters.getD (draws i % 52) 'a')

/-- The `ContainerContext` struct of project.go:59: the pending run command
(`exec.Cmd` modelled as its argv) and the generated container name. -/
structure ContainerContext where
  cmd : List String
  name : String

/-- The kill command issued by `ContainerContext.stop` (project.go:74):
`docker kill <name>` for the stored container name. -/
def ContainerContext.killCmd (c : ContainerContext) : List String :=
  ["docker", "kill", c.name]

/-- `NewContainerContext` (project.go:446): generate the container name,
then assemble the run argv: port binding, name, bind mount, working
directory, user run args, forwarded ports, optional remote user, image tag. -/
def NewContainerContext (draws : Nat → Nat) (tag : String) (devcontainer : DevContainer)
    (serviceURL : ServiceURL) : Except String ContainerContext :=
  let name := makeRandomString draws
  let portBinding := "0.0.0.0:" ++ toString serviceURL.Port ++ ":8080"
  let args := ["run", "--rm", "-p", portBinding, "--name", name]
  match getWorkspaceBinding devcontainer with
  | Except.error e => Except.error e
  | Except.ok workspaceBinding =>
    let args := args ++ ["--mount", workspaceBinding]
    let args := args ++ ["-w", serviceURL.WorkspaceFolder]
    let args := args ++ devcontainer.RunArgs
    let args := args ++ devcontainer.ForwardPorts.flatMap (fun v => ["-p", v])
    let args := args ++
      (if devcontainer.RemoteUser ≠ "" then ["-u", devcontainer.RemoteUser] else [])
    let args := args ++ [tag]
    Except.ok { cmd := "docker" :: args, name := name }

/-- Claim C8: whenever the bind mount resolves, the constructed run argv
is, in order: the run subcommand, the port mapping on the resolved port,
the generated name, the interpolated bind mount, the workspace folder as
working directory, the user run args verbatim, a publish flag per forwarded
port, the user flag exactly when remoteUser is non-empty, and the image tag
last. -/
theorem newContainerContext_args (draws : Nat → Nat) (tag : String) (dc : DevContainer)
    (su : ServiceURL) (wb : String) (hwb : getWorkspaceBinding dc = Except.ok wb) :
    NewContainerContext draws tag dc su = Except.ok
      { cmd := "docker" :: "run" :: "--rm" :: "-p"
          :: ("0.0.0.0:" ++ toString su.Port ++ ":8080") :: "--name"
          :: makeRandomString draws :: "--mount" :: wb :: "-w" :: su.WorkspaceFolder
          :: (((dc.RunArgs ++ dc.ForwardPorts.flatMap (fun v => ["-p", v]))
              ++ (if dc.RemoteUser ≠ "" then ["-u", dc.RemoteUser] else [])) ++ [tag]),
        name := makeRandomString draws } := by
  unfold NewContainerContext
  rw [hwb]
  rfl

/-- The resolved service endpoint used by the container witnesses. -/
def sampleServiceURL : ServiceURL where
  Host := "devhost"
  Port := 40123
  WorkspaceFolder := "/workspace/proj"

/-- Witness for claim C8 at concrete inputs, with the full argv spelled
out. -/
theorem newContainerContext_args_witness :
    NewContainerContext (fun i => i) "demo_app_code_coder_server" sampleDevContainer
        sampleServiceURL
      = Except.ok
        { cmd := "docker" :: "run" :: "--rm" :: "-p" :: "0.0.0.0:40123:8080" :: "--name"
            :: makeRandomString (fun i => i) :: "--mount"
            :: "source=/proj,target=/workspace/proj,type=bind" :: "-w" :: "/workspace/proj"
            :: (((["--gpus", "all"] ++ ["3000:3000"].flatMap (fun v => ["-p", v]))
                ++ (if ("dev" : String) ≠ "" then ["-u", "dev"] else []))
              ++ ["demo_app_code_coder_server"]),
          name := makeRandomString (fun i => i) } :=
  newContainerContext_args (fun i => i) "demo_app_code_coder_server" sampleDevContainer
    sampleServiceURL "source=/proj,target=/workspace/proj,type=bind" rfl

/-- Claim C9: a successfully constructed container context carries a
16-character alphanumeric name, that name sits in the run argv as the value
of the `--name` flag, and the kill command issued at stop targets exactly
the same name. -/
theorem containerContext_name_invariant (draws : Nat → Nat) (tag : String)
    (dc : DevContainer) (su : ServiceURL) (ctx : ContainerContext)
    (h : NewContainerContext draws tag dc su = Except.ok ctx) :
    ctx.name.length = 16
    ∧ (∀ c ∈ ctx.name.data, c.isAlphanum = true)
    ∧ ctx.cmd.get? 5 = some "--name"
    ∧ ctx.cmd.get? 6 = some ctx.name
    ∧ ctx.killCmd = ["docker", "kill", ctx.name] := by
  unfold NewContainerContext at h
  cases hwb : getWorkspaceBinding dc with
  | error e =>
    rw [hwb] at h
    exact Except.noConfusion h
  | ok wb =>
    rw [hwb] at h
    injection h with h
    subst h
    refine ⟨?_, ?_, rfl, rfl, rfl⟩
    · simp [makeRandomString, String.length]
    · intro c hc
      simp only [makeRandomString, String.mk] at hc
      rcases List.mem_map.mp hc with ⟨i, _, rfl⟩
      have hlt : draws i % 52 < 52 := Nat.mod_lt _ (by omega)
      have hmem : containerLetters.getD (draws i % 52) 'a' ∈ containerLetters := by
        have hlen : containerLetters.length = 52 := by decide
        have := List.getD_eq_getElem containerLetters 'a' (by omega : draws i % 52 < containerLetters.length)
        rw [this]
        exact List.getElem_mem _
      have hall : ∀ c ∈ containerLetters, c.isAlphanum = true := by decide
      exact hall _ hmem

/-- The container context produced from the sample inputs with the identity
draw stream: the sixteen draws 0..15 select the letters a..p. -/
def sampleContainerContext : ContainerContext where
  cmd := ["docker", "run", "--rm", "-p", "0.0.0.0:40123:8080", "--name",
    "abcdefghijklmnop", "--mount", "source=/proj,target=/workspace/proj,type=bind",
    "-w", "/workspace/proj", "--gpus", "all", "-p", "3000:3000", "-u", "dev",
    "demo_app_code_coder_server"]
  name := "abcdefghijklmnop"

/-- Witness for claim C9 at concrete inputs: the constructed context's name
has length sixteen, sits behind the `--name` flag of the run argv, and is
the exact target of the kill command. -/
theorem containerContext_name_invariant_witness :
    sampleContainerContext.name.length = 16
    ∧ sampleContainerContext.cmd.get? 5 = some "--name"
    ∧ sampleContainerContext.cmd.get? 6 = some sampleContainerContext.name
    ∧ sampleContainerContext.killCmd = ["docker", "kill", sampleContainerContext.name] :=
  have T := containerContext_name_invariant (fun i => i) "demo_app_code_coder_server"
    sampleDevContainer sampleServiceURL sampleContainerContext rfl
  ⟨T.1, T.2.2.1, T.2.2.2.1, T.2.2.2.2⟩
